import Mathlib

/-!
Verification development for the tenxagent repository.

The repository's visible sources are example and smoke-test code
(`debug_agent.py`, `test_agent_as_tool.py`, `test_tool_calls.py`, and the
`examples/` directory); the engine they exercise (the `tenxagent` package:
agent loop, session store, model adapters, `safe_evaluate`) is not part of
the sources.  Definitions for the engine are therefore modelled from the
specification, as marked in their doc comments; the calculator tools that
do appear in the sources are embedded directly from the Python code.
-/

/-! ## JSON values

Structured values exchanged between the model adapters, the capability
arguments, and the opaque metadata mapping are JSON-shaped. -/

/-- A JSON value.  Numbers keep their raw numeral text, since no claim
depends on numeric semantics and floating point is not modelled. -/
inductive Json where
  | null : Json
  | bool : Bool → Json
  | num : String → Json
  | str : String → Json
  | arr : List Json → Json
  | obj : List (String × Json) → Json

/-- Left brace character, written by code to keep string literals brace-free. -/
def lbChar : Char := Char.ofNat 123

/-- Right brace character. -/
def rbChar : Char := Char.ofNat 125

/-- Drop leading JSON whitespace. -/
def skipWs : List Char → List Char
  | [] => []
  | c :: cs => if c = ' ' || c = '\n' || c = '\t' || c = '\r' then skipWs cs else c :: cs

/-- Translate a character appearing after a backslash in a JSON string literal. -/
def unescapeChar (c : Char) : Char :=
  if c = 'n' then '\n' else if c = 't' then '\t' else if c = 'r' then '\r' else c

/-- Scan the body of a JSON string literal (after the opening quote); the
Bool records a pending backslash escape, the accumulator is reversed. -/
def parseStringAux : Bool → List Char → List Char → Option (String × List Char)
  | _, _, [] => none
  | true, acc, c :: cs => parseStringAux false (unescapeChar c :: acc) cs
  | false, acc, c :: cs =>
    if c = '"' then some (String.mk acc.reverse, cs)
    else if c = '\\' then parseStringAux true acc cs
    else parseStringAux false (c :: acc) cs

/-- Is the character part of a JSON numeral? -/
def isNumChar (c : Char) : Bool :=
  c.isDigit || c = '-' || c = '+' || c = '.' || c = 'e' || c = 'E'

/-- Split off a maximal run of numeral characters. -/
def spanNum : List Char → List Char × List Char
  | [] => ([], [])
  | c :: cs =>
    if isNumChar c then
      let p := spanNum cs
      (c :: p.1, p.2)
    else ([], c :: cs)

/-- Fuel-indexed recursive-descent parse of one JSON value, returning the
value and the unconsumed remainder.  A comma continuing an object or array
is handled by re-entering the parser with a reopened bracket, which keeps
the recursion structural on the fuel. -/
def parseJ : Nat → List Char → Option (Json × List Char)
  | 0, _ => none
  | Nat.succ n, input =>
    match skipWs input with
    | [] => none
    | c :: cs =>
      if c = '"' then
        match parseStringAux false [] cs with
        | some (s, rest) => some (Json.str s, rest)
        | none => none
      else if c = lbChar then
        match skipWs cs with
        | [] => none
        | c2 :: cs2 =>
          if c2 = rbChar then some (Json.obj [], cs2)
          else if c2 = '"' then
            match parseStringAux false [] cs2 with
            | none => none
            | some (k, rest1) =>
              match skipWs rest1 with
              | ':' :: rest2 =>
                match parseJ n rest2 with
                | none => none
                | some (v, rest3) =>
                  match skipWs rest3 with
                  | [] => none
                  | c4 :: rest4 =>
                    if c4 = rbChar then some (Json.obj [(k, v)], rest4)
                    else if c4 = ',' then
                      match parseJ n (lbChar :: rest4) with
                      | some (Json.obj kvs, rest5) => some (Json.obj ((k, v) :: kvs), rest5)
                      | _ => none
                    else none
              | _ => none
          else none
      else if c = '[' then
        match skipWs cs with
        | [] => none
        | c2 :: cs2 =>
          if c2 = ']' then some (Json.arr [], cs2)
          else
            match parseJ n (c2 :: cs2) with
            | none => none
            | some (x, rest1) =>
              match skipWs rest1 with
              | [] => none
              | c3 :: rest3 =>
                if c3 = ']' then some (Json.arr [x], rest3)
                else if c3 = ',' then
                  match parseJ n ('[' :: rest3) with
                  | some (Json.arr xs, rest4) => some (Json.arr (x :: xs), rest4)
                  | _ => none
                else none
      else
        match c :: cs with
        | 't' :: 'r' :: 'u' :: 'e' :: rest => some (Json.bool true, rest)
        | 'f' :: 'a' :: 'l' :: 's' :: 'e' :: rest => some (Json.bool false, rest)
        | 'n' :: 'u' :: 'l' :: 'l' :: rest => some (Json.null, rest)
        | other =>
          match spanNum other with
          | ([], _) => none
          | (ds, rest) => some (Json.num (String.mk ds), rest)

/-- Parse a whole string as one JSON value with nothing but whitespace after it. -/
def parseWholeJson (s : String) : Option Json :=
  match parseJ (2 * s.length + 4) s.toList with
  | some (j, rest) => if (skipWs rest).isEmpty then some j else none
  | none => none

/-- Find the first balanced JSON object embedded anywhere in the text:
scan for an opening brace and take the first position from which a JSON
value parses. -/
def firstJsonObj : List Char → Option Json
  | [] => none
  | c :: cs =>
    if c = lbChar then
      match parseJ (2 * (cs.length + 1) + 4) (c :: cs) with
      | some (j, _) => some j
      | none => firstJsonObj cs
    else firstJsonObj cs

/-! ## Message and capability model

Modelled from the spec, section 3 (DATA MODEL): the entity definitions are
shared by every component; the `tenxagent.schemas` module that implements
them is not part of this repository's sources. -/

/-- Modelled from the spec: the role of a conversation message (section 3). -/
inductive Role where
  | system : Role
  | user : Role
  | assistant : Role
  | tool : Role
deriving DecidableEq

/-- Modelled from the spec: an InvocationRequest, one requested capability
call inside a generated message (section 3). -/
structure InvocationRequest where
  id : String
  name : String
  arguments : List (String × Json)

/-- Modelled from the spec: a conversation Message (section 3); immutable
once appended to a session. -/
structure Message where
  role : Role
  content : String
  invocation_requests : List InvocationRequest := []
  correlation_id : Option String := none

/-- Modelled from the spec: a GenerationResult, one model response together
with its token usage (section 3). -/
structure GenerationResult where
  message : Message
  input_tokens : Nat
  output_tokens : Nat

/-- Opaque metadata mapping threaded unchanged through the pipeline. -/
abbrev Metadata := List (String × Json)

/-- Modelled from the spec: a CapabilitySpec (section 3); the argument
schema is kept as a black-box validator, as the spec treats schema
validation as an external collaborator. -/
structure CapabilitySpec where
  name : String
  description : String
  validate : List (String × Json) → Except String Unit
  execute : List (String × Json) → Metadata → Except String String

/-- A language-model backend: `generate(messages, capability_specs,
metadata) -> GenerationResult` (spec section 4.2). -/
abbrev Backend := List Message → List CapabilitySpec → Metadata → GenerationResult

/-- Modelled from the spec: RunResult, what a run returns (section 3). -/
structure RunResult where
  content : String
  input_tokens : Nat
  output_tokens : Nat
  total_tokens : Nat
  capabilities_used : List String

/-! ## Session Store

Modelled from the spec, section 4.1: a per-session ordered message log;
the implementing module is not part of this repository's sources. -/

/-- Modelled from the spec: the Session Store, a map from session id to
ordered message sequence (section 4.1). -/
abbrev SessionStore := List (String × List Message)

/-- Messages stored for a session id; an absent session reads as empty. -/
def lookupD : SessionStore → String → List Message
  | [], _ => []
  | (k, v) :: rest, sid => if k = sid then v else lookupD rest sid

/-- Replace the message sequence stored under a session id, creating the
session if it is absent. -/
def storeSet : SessionStore → String → List Message → SessionStore
  | [], sid, msgs => [(sid, msgs)]
  | (k, v) :: rest, sid, msgs =>
    if k = sid then (k, msgs) :: rest else (k, v) :: storeSet rest sid msgs

theorem lookupD_storeSet (s : SessionStore) (k : String) (v : List Message) (k2 : String) :
    lookupD (storeSet s k v) k2 = if k2 = k then v else lookupD s k2 := by
  induction s with
  | nil =>
    by_cases h : k2 = k
    · subst h; simp [storeSet, lookupD]
    · have h2 : ¬ k = k2 := fun hh => h hh.symm
      simp [storeSet, lookupD, h, h2]
  | cons hd tl ih =>
    obtain ⟨hk, hv⟩ := hd
    by_cases h1 : hk = k
    · subst h1
      by_cases h2 : k2 = hk
      · subst h2; simp [storeSet, lookupD]
      · have h2b : ¬ hk = k2 := fun hh => h2 hh.symm
        simp [storeSet, lookupD, h2, h2b]
    · by_cases h2 : hk = k2
      · subst h2
        have h3 : ¬ hk = k := h1
        have h4 : ¬ hk = k := h1
        simp [storeSet, lookupD, h1, h3, h4]
      · simp [storeSet, lookupD, h1, h2, ih]

/-! ## Manual-dialect parsing

Modelled from the spec, section 4.2 (Model Adapter, manual variant): the
`tenxagent` manual tool-calling model is not part of this repository's
sources.  On receiving raw text, parsing proceeds by best effort, never
raising: (a) try to parse the entire content as the structured convention;
(b) on failure, locate the first balanced JSON object embedded anywhere in
the text; (c) on failure, treat the full content as a final plain-text
answer with zero invocation requests.  A parsed object lacking a usable
`tool_calls` field likewise yields zero invocation requests. -/

/-- First value stored under a key of a JSON object's field list. -/
def getField : List (String × Json) → String → Option Json
  | [], _ => none
  | (k, v) :: rest, key => if k = key then some v else getField rest key

/-- Turn one entry of a `tool_calls` array into an InvocationRequest when
it has a usable shape (a string `name` and an object `arguments`); the id
is synthesized from the entry's position. -/
def reqOfJson (idx : Nat) (j : Json) : Option InvocationRequest :=
  match j with
  | Json.obj kvs =>
    match getField kvs "name", getField kvs "arguments" with
    | some (Json.str n), some (Json.obj args) =>
      some { id := toString idx, name := n, arguments := args }
    | _, _ => none
  | _ => none

/-- Invocation requests carried by a parsed JSON value: the usable entries
of its `tool_calls` field, in order; anything else is zero requests. -/
def requestsOfJson (j : Json) : List InvocationRequest :=
  match j with
  | Json.obj kvs =>
    match getField kvs "tool_calls" with
    | some (Json.arr xs) => (xs.enum).filterMap (fun p => reqOfJson p.1 p.2)
    | _ => []
  | _ => []

/-- Modelled from the spec: best-effort parsing of a manual-dialect model
response into an assistant message (section 4.2); total, and the raw
content is always passed through unchanged. -/
def parseManualContent (content : String) : Message :=
  let parsed :=
    match parseWholeJson content with
    | some j => some j
    | none => firstJsonObj content.toList
  match parsed with
  | some j => { role := Role.assistant, content := content, invocation_requests := requestsOfJson j }
  | none => { role := Role.assistant, content := content, invocation_requests := [] }

/-! ## Agent Loop

Modelled from the spec, section 4.4 (the core state machine); the
`tenxagent.agent` module implementing it is not part of this repository's
sources.  The configured maximum number of generation calls is the fuel of
the loop, so a run is total by construction; the token budget is checked
after each generation returns, never before it. -/

/-- Modelled from the spec: the Agent Loop configuration (`TenxAgent(llm,
tools, system_prompt, max_llm_calls, max_tokens)` in the sources). -/
structure AgentConfig where
  system_prompt : String
  tools : List CapabilitySpec
  max_llm_calls : Nat
  max_tokens : Nat

/-- Look a capability up by name among the registered tools. -/
def findTool : List CapabilitySpec → String → Option CapabilitySpec
  | [], _ => none
  | t :: rest, nm => if t.name = nm then some t else findTool rest nm

/-- Modelled from the spec: handling of one invocation request (section
4.4): an unknown capability name synthesizes a tool-role error message; a
validation failure synthesizes a tool-role error message and does not
execute; otherwise the capability runs and any failure it raises is caught
and converted into a tool-role error message.  Returns the correlated
tool-role message and the capability names actually invoked (none or one). -/
def executeOne (tools : List CapabilitySpec) (md : Metadata) (r : InvocationRequest) :
    Message × List String :=
  match findTool tools r.name with
  | none =>
    ({ role := Role.tool,
       content := "Error: unknown capability \x27" ++ r.name ++ "\x27",
       correlation_id := some r.id }, [])
  | some t =>
    match t.validate r.arguments with
    | Except.error e =>
      ({ role := Role.tool, content := e, correlation_id := some r.id }, [])
    | Except.ok _ =>
      match t.execute r.arguments md with
      | Except.ok out =>
        ({ role := Role.tool, content := out, correlation_id := some r.id }, [t.name])
      | Except.error e =>
        ({ role := Role.tool, content := "Error: " ++ e, correlation_id := some r.id }, [t.name])

/-- Modelled from the spec: execute the invocation requests of one
generation in the order produced (section 4.4), collecting the correlated
tool-role messages and the ordered names of the capabilities invoked. -/
def executeRequests (tools : List CapabilitySpec) (md : Metadata) :
    List InvocationRequest → List Message × List String
  | [] => ([], [])
  | r :: rest =>
    let p := executeOne tools md r
    let q := executeRequests tools md rest
    (p.1 :: q.1, p.2 ++ q.2)

/-- The working state threaded through the Agent Loop: the working message
sequence, the session store, the session id being appended to (`none` in
stateless explicit-history mode), and the accumulated counters. -/
structure LoopState where
  messages : List Message
  store : SessionStore
  stateful : Option String
  calls : Nat
  input_tokens : Nat
  output_tokens : Nat
  capabilities_used : List String

/-- Append one message to the stored session of a stateful run; a
stateless run leaves the store untouched. -/
def sessionAppend (store : SessionStore) (stateful : Option String) (m : Message) :
    SessionStore :=
  match stateful with
  | some sid => storeSet store sid (lookupD store sid ++ [m])
  | none => store

/-- Append one message to the working sequence and, in stateful mode, to
the stored session. -/
def appendMsg (st : LoopState) (m : Message) : LoopState :=
  { st with messages := st.messages ++ [m], store := sessionAppend st.store st.stateful m }

/-- Append a list of messages in order. -/
def appendMsgs (st : LoopState) : List Message → LoopState
  | [] => st
  | m :: rest => appendMsgs (appendMsg st m) rest

/-- Modelled from the spec: the GENERATE step of the Agent Loop (section
4.4): append the generated assistant message to the working sequence (and
the session, unless stateless), increment the call counter, accumulate
token usage. -/
def TenxAgent.genStep (st : LoopState) (gr : GenerationResult) : LoopState :=
  { st with
    messages := st.messages ++ [gr.message]
    store := sessionAppend st.store st.stateful gr.message
    calls := st.calls + 1
    input_tokens := st.input_tokens + gr.input_tokens
    output_tokens := st.output_tokens + gr.output_tokens }

/-- Modelled from the spec: the EXECUTE_CAPABILITIES step of the Agent
Loop (section 4.4): execute the requests in the order produced, append the
correlated tool-role messages in that order, record the capability names
invoked. -/
def TenxAgent.execStep (cfg : AgentConfig) (md : Metadata) (st : LoopState)
    (reqs : List InvocationRequest) : LoopState :=
  let tr := executeRequests cfg.tools md reqs
  { appendMsgs st tr.1 with capabilities_used := st.capabilities_used ++ tr.2 }

/-- Modelled from the spec: the GENERATE / EXECUTE_CAPABILITIES cycle of
the Agent Loop (section 4.4).  Each round invokes the backend and applies
the GENERATE step; then, post-hoc, the token budget is checked; a message
with no invocation requests finalizes; otherwise the requests are executed
and the loop repeats.  The fuel is the configured maximum number of
generation calls, so budget exhaustion returns the best available content
(the most recent generation's content) instead of looping on. -/
def TenxAgent.loop (backend : Backend) (cfg : AgentConfig) (md : Metadata) :
    Nat → LoopState → String → LoopState × String
  | 0, st, lastContent => (st, lastContent)
  | Nat.succ n, st, _ =>
    let gr := backend st.messages cfg.tools md
    let st2 := TenxAgent.genStep st gr
    if cfg.max_tokens < st2.input_tokens + st2.output_tokens then
      (st2, gr.message.content)
    else if gr.message.invocation_requests.isEmpty then
      (st2, gr.message.content)
    else
      TenxAgent.loop backend cfg md n
        (TenxAgent.execStep cfg md st2 gr.message.invocation_requests)
        gr.message.content

/-- The conversation history a run starts from: the explicit history when
one is supplied, else the stored session history. -/
def initialHistory (explicit_history : Option (List Message)) (store : SessionStore)
    (sid : String) : List Message :=
  match explicit_history with
  | some h => h
  | none => lookupD store sid

/-- Modelled from the spec: BUILD_CONTEXT (section 4.4): configured system
prompt, then the history, then a new user message for the query. -/
def buildContext (cfg : AgentConfig) (history : List Message) (query : String) :
    List Message :=
  { role := Role.system, content := cfg.system_prompt } ::
    (history ++ [{ role := Role.user, content := query }])

/-- Modelled from the spec: the state a run starts in.  With an explicit
history the run is stateless and the Session Store is not touched; else
the session is read (created empty on first use) and the new user turn is
appended to it. -/
def TenxAgent.initState (cfg : AgentConfig) (query : String) (sid : String)
    (explicit_history : Option (List Message)) (store : SessionStore) : LoopState :=
  { messages := buildContext cfg (initialHistory explicit_history store sid) query
    store :=
      match explicit_history with
      | some _ => store
      | none => storeSet store sid
          (lookupD store sid ++ [{ role := Role.user, content := query }])
    stateful := match explicit_history with | some _ => none | none => some sid
    calls := 0
    input_tokens := 0
    output_tokens := 0
    capabilities_used := [] }

/-- Modelled from the spec: a full run of the Agent Loop returning the
final loop state and the final content (section 4.4). -/
def TenxAgent.runState (backend : Backend) (cfg : AgentConfig) (query : String)
    (sid : String) (explicit_history : Option (List Message)) (md : Metadata)
    (store : SessionStore) : LoopState × String :=
  TenxAgent.loop backend cfg md cfg.max_llm_calls
    (TenxAgent.initState cfg query sid explicit_history store) ""

/-- Modelled from the spec: the entry point `run(query, session_id?,
explicit_history?, metadata?) -> RunResult` (sections 4.4 and 6), paired
with the Session Store as it stands after the run.  No output schema is
modelled: with no schema the final content passes through unchanged as
text (section 4.3). -/
def TenxAgent.run (backend : Backend) (cfg : AgentConfig) (query : String)
    (sid : String) (explicit_history : Option (List Message)) (md : Metadata)
    (store : SessionStore) : RunResult × SessionStore :=
  let r := TenxAgent.runState backend cfg query sid explicit_history md store
  ({ content := r.2
     input_tokens := r.1.input_tokens
     output_tokens := r.1.output_tokens
     total_tokens := r.1.input_tokens + r.1.output_tokens
     capabilities_used := r.1.capabilities_used }, r.1.store)

/-- The single text argument of an Agent-as-Capability call: the first
string-valued argument, else the empty string. -/
def argText : List (String × Json) → String
  | (_, Json.str s) :: _ => s
  | _ => ""

/-- Modelled from the spec: the Agent-as-Capability Adapter
(`create_tenx_agent_tool` in `tenxagent.agent`, not part of this
repository's sources; spec section 4.5).  The wrapper takes a single text
argument, drives the inner Agent Loop against a fresh, independent session
(an empty store of its own, never the outer loop's session) and returns
the inner run's final textual content. -/
def create_tenx_agent_tool (innerBackend : Backend) (innerCfg : AgentConfig)
    (nm description : String) : CapabilitySpec :=
  { name := nm
    description := description
    validate := fun _ => Except.ok ()
    execute := fun args md =>
      Except.ok
        (TenxAgent.run innerBackend innerCfg (argText args) "agent_tool_session"
          none md []).1.content }

/-! ## Example calculator tools

These are embedded directly from the repository's Python sources.  The
expression evaluators they call (`eval` in `test_tool_calls.py`,
`tenxagent.safe_evaluate` in the examples) are external to the visible
sources, so each is abstracted as a function returning either the rendered
result text or the text of the exception it raised. -/

/-- The character whitelist `set('0123456789+-*/().,e ')` shared by the
calculator tools in `src/test_tool_calls.py`, `src/examples/basic_usage.py`,
`src/examples/simple_history.py` and `src/examples/flexible_models.py`. -/
def allowed_chars : List Char := "0123456789+-*/().,e ".toList

/-- Embedding of `CalculatorTool.execute` from `src/test_tool_calls.py`
(lines 21-31).  `evalExpr` abstracts the Python `eval` builtin: `Except.ok`
is the rendered value, `Except.error` the text of a raised exception,
which the source catches and reports as an error string. -/
def CalculatorTool.execute (evalExpr : String → Except String String)
    (expression : String) : String :=
  if !(expression.toList.all (fun c => allowed_chars.contains c)) then
    "Error: Only basic mathematical operations are allowed"
  else
    match evalExpr expression with
    | Except.ok result => "The result is: " ++ result
    | Except.error e => "Error: " ++ e

/-- Embedding of the examples' `CalculatorTool.execute`
(`src/examples/basic_usage.py` lines 30-40, `src/examples/simple_history.py`
lines 34-44, `src/examples/flexible_models.py` lines 33-43), identical to
the test tool except that it calls `safe_evaluate` and renders successes
as `Result: ...`. -/
def ExampleCalculatorTool.execute (safe_evaluate : String → Except String String)
    (expression : String) : String :=
  if !(expression.toList.all (fun c => allowed_chars.contains c)) then
    "Error: Only basic mathematical operations are allowed"
  else
    match safe_evaluate expression with
    | Except.ok result => "Result: " ++ result
    | Except.error e => "Error: " ++ e

/-- First value stored under a key of a Python-dict-like mapping. -/
def pyLookup : List (String × Json) → String → Option Json
  | [], _ => none
  | (k, v) :: rest, key => if k = key then some v else pyLookup rest key

/-- Python `dict.get(key, default)`. -/
def pyGet (md : List (String × Json)) (k : String) (default : Json) : Json :=
  (pyLookup md k).getD default

/-- Python `x == "s"` for a dynamically typed `x`: true exactly for the
string value `s` (comparison of a non-string with a string is False). -/
def jsonIsStr (j : Json) (s : String) : Bool :=
  match j with
  | Json.str t => t = s
  | _ => false

/-- Python truthiness of a JSON-shaped value. -/
def truthy : Json → Bool
  | Json.null => false
  | Json.bool b => b
  | Json.str s => !s.isEmpty
  | Json.num s =>
    let cs := s.toList.filter (fun c => c ≠ '-' && c ≠ '+')
    !(!cs.isEmpty && cs.all (fun c => c = '0' || c = '.'))
  | Json.arr xs => !xs.isEmpty
  | Json.obj kvs => !kvs.isEmpty

/-- Rendering of a JSON-shaped value inside a Python f-string. -/
def jsonDisplay : Json → String
  | Json.str s => s
  | Json.num s => s
  | Json.bool true => "True"
  | Json.bool false => "False"
  | Json.null => "None"
  | Json.arr _ => "[list]"
  | Json.obj _ => "[dict]"

/-- Does the string `pat` occur as a substring of the text? -/
def startsWithList : List Char → List Char → Bool
  | [], _ => true
  | _ :: _, [] => false
  | p :: ps, c :: cs => p = c && startsWithList ps cs

/-- Python `pat in s` on the character lists. -/
def substrAux (needle : List Char) : List Char → Bool
  | [] => needle.isEmpty
  | c :: cs => startsWithList needle (c :: cs) || substrAux needle cs

/-- Python `pat in s` for strings. -/
def hasSubstr (s pat : String) : Bool := substrAux pat.toList s.toList

/-- Embedding of `MetadataAwareCalculatorTool.execute` from
`src/examples/metadata_usage.py` (lines 35-65).  `evalRound` abstracts the
call to `tenxagent.safe_evaluate` together with the subsequent float
rounding at the precision taken from the metadata, neither of which is
part of the visible sources (and float arithmetic is not modelled): it
receives the expression and the precision value and returns the rendered
result text or the text of a raised exception, which the source catches
and reports as an error string. -/
def MetadataAwareCalculatorTool.execute (evalRound : String → Json → Except String String)
    (expression : String) (metadata : Option (List (String × Json))) : String :=
  let md := metadata.getD []
  let precision := pyGet md "precision" (Json.num "2")
  let user_role := pyGet md "user_role" (Json.str "basic")
  if hasSubstr expression "**" && jsonIsStr user_role "basic" then
    "Error: Power operations require elevated privileges"
  else
    match evalRound expression precision with
    | Except.error e => "Error: " ++ e
    | Except.ok result =>
      let response := "Result: " ++ result
      let response :=
        if truthy (pyGet md "show_calculation" (Json.bool false)) then
          response ++ " (calculated: " ++ expression ++ ")"
        else response
      let response :=
        if truthy (pyGet md "user_id" Json.null) then
          response ++ " [calculated for user: " ++ jsonDisplay (pyGet md "user_id" Json.null) ++ "]"
        else response
      response

/-! ## Helper lemmas about the loop state -/

theorem lookupD_sessionAppend (store : SessionStore) (stf : Option String)
    (m : Message) (sid : String) :
    lookupD (sessionAppend store stf m) sid =
      if stf = some sid then lookupD store sid ++ [m] else lookupD store sid := by
  cases stf with
  | none => simp [sessionAppend]
  | some s =>
    simp only [sessionAppend, lookupD_storeSet]
    by_cases h : sid = s
    · subst h; simp
    · have h2 : ¬ s = sid := fun hh => h hh.symm
      simp [h, h2]

@[simp] theorem appendMsg_calls (st : LoopState) (m : Message) :
    (appendMsg st m).calls = st.calls := rfl

@[simp] theorem appendMsg_stateful (st : LoopState) (m : Message) :
    (appendMsg st m).stateful = st.stateful := rfl

@[simp] theorem appendMsg_input_tokens (st : LoopState) (m : Message) :
    (appendMsg st m).input_tokens = st.input_tokens := rfl

@[simp] theorem appendMsg_output_tokens (st : LoopState) (m : Message) :
    (appendMsg st m).output_tokens = st.output_tokens := rfl

@[simp] theorem appendMsg_caps (st : LoopState) (m : Message) :
    (appendMsg st m).capabilities_used = st.capabilities_used := rfl

theorem lookupD_appendMsg (st : LoopState) (m : Message) (sid : String) :
    lookupD (appendMsg st m).store sid =
      if st.stateful = some sid then lookupD st.store sid ++ [m]
      else lookupD st.store sid := by
  simp [appendMsg, lookupD_sessionAppend]

@[simp] theorem appendMsgs_calls (ms : List Message) :
    ∀ st : LoopState, (appendMsgs st ms).calls = st.calls := by
  induction ms with
  | nil => intro st; rfl
  | cons m rest ih => intro st; simp [appendMsgs, ih]

@[simp] theorem appendMsgs_stateful (ms : List Message) :
    ∀ st : LoopState, (appendMsgs st ms).stateful = st.stateful := by
  induction ms with
  | nil => intro st; rfl
  | cons m rest ih => intro st; simp [appendMsgs, ih]

@[simp] theorem appendMsgs_input_tokens (ms : List Message) :
    ∀ st : LoopState, (appendMsgs st ms).input_tokens = st.input_tokens := by
  induction ms with
  | nil => intro st; rfl
  | cons m rest ih => intro st; simp [appendMsgs, ih]

@[simp] theorem appendMsgs_output_tokens (ms : List Message) :
    ∀ st : LoopState, (appendMsgs st ms).output_tokens = st.output_tokens := by
  induction ms with
  | nil => intro st; rfl
  | cons m rest ih => intro st; simp [appendMsgs, ih]

@[simp] theorem appendMsgs_caps (ms : List Message) :
    ∀ st : LoopState, (appendMsgs st ms).capabilities_used = st.capabilities_used := by
  induction ms with
  | nil => intro st; rfl
  | cons m rest ih => intro st; simp [appendMsgs, ih]

theorem lookupD_appendMsgs (ms : List Message) :
    ∀ (st : LoopState) (sid : String),
      lookupD (appendMsgs st ms).store sid =
        if st.stateful = some sid then lookupD st.store sid ++ ms
        else lookupD st.store sid := by
  induction ms with
  | nil =>
    intro st sid
    by_cases h : st.stateful = some sid <;> simp [appendMsgs, h]
  | cons m rest ih =>
    intro st sid
    by_cases h : st.stateful = some sid <;>
      simp [appendMsgs, ih, h, lookupD_appendMsg, List.append_assoc]

@[simp] theorem genStep_calls (st : LoopState) (gr : GenerationResult) :
    (TenxAgent.genStep st gr).calls = st.calls + 1 := rfl

@[simp] theorem genStep_stateful (st : LoopState) (gr : GenerationResult) :
    (TenxAgent.genStep st gr).stateful = st.stateful := rfl

@[simp] theorem genStep_input_tokens (st : LoopState) (gr : GenerationResult) :
    (TenxAgent.genStep st gr).input_tokens = st.input_tokens + gr.input_tokens := rfl

@[simp] theorem genStep_output_tokens (st : LoopState) (gr : GenerationResult) :
    (TenxAgent.genStep st gr).output_tokens = st.output_tokens + gr.output_tokens := rfl

@[simp] theorem genStep_caps (st : LoopState) (gr : GenerationResult) :
    (TenxAgent.genStep st gr).capabilities_used = st.capabilities_used := rfl

theorem lookupD_genStep (st : LoopState) (gr : GenerationResult) (sid : String) :
    lookupD (TenxAgent.genStep st gr).store sid =
      if st.stateful = some sid then lookupD st.store sid ++ [gr.message]
      else lookupD st.store sid := by
  simp [TenxAgent.genStep, lookupD_sessionAppend]

@[simp] theorem execStep_calls (cfg : AgentConfig) (md : Metadata) (st : LoopState)
    (reqs : List InvocationRequest) :
    (TenxAgent.execStep cfg md st reqs).calls = st.calls := by
  simp [TenxAgent.execStep]

@[simp] theorem execStep_stateful (cfg : AgentConfig) (md : Metadata) (st : LoopState)
    (reqs : List InvocationRequest) :
    (TenxAgent.execStep cfg md st reqs).stateful = st.stateful := by
  simp [TenxAgent.execStep]

@[simp] theorem execStep_input_tokens (cfg : AgentConfig) (md : Metadata) (st : LoopState)
    (reqs : List InvocationRequest) :
    (TenxAgent.execStep cfg md st reqs).input_tokens = st.input_tokens := by
  simp [TenxAgent.execStep]

@[simp] theorem execStep_output_tokens (cfg : AgentConfig) (md : Metadata) (st : LoopState)
    (reqs : List InvocationRequest) :
    (TenxAgent.execStep cfg md st reqs).output_tokens = st.output_tokens := by
  simp [TenxAgent.execStep]

@[simp] theorem execStep_caps (cfg : AgentConfig) (md : Metadata) (st : LoopState)
    (reqs : List InvocationRequest) :
    (TenxAgent.execStep cfg md st reqs).capabilities_used
      = st.capabilities_used ++ (executeRequests cfg.tools md reqs).2 := by
  simp [TenxAgent.execStep]

theorem lookupD_execStep (cfg : AgentConfig) (md : Metadata) (st : LoopState)
    (reqs : List InvocationRequest) (sid : String) :
    lookupD (TenxAgent.execStep cfg md st reqs).store sid =
      if st.stateful = some sid then
        lookupD st.store sid ++ (executeRequests cfg.tools md reqs).1
      else lookupD st.store sid := by
  simp [TenxAgent.execStep, lookupD_appendMsgs]

theorem executeOne_caps_le (tools : List CapabilitySpec) (md : Metadata)
    (r : InvocationRequest) : (executeOne tools md r).2.length ≤ 1 := by
  simp only [executeOne]
  split
  · simp
  · split
    · simp
    · split <;> simp

theorem executeOne_corr (tools : List CapabilitySpec) (md : Metadata)
    (r : InvocationRequest) : (executeOne tools md r).1.correlation_id = some r.id := by
  simp only [executeOne]
  split
  · simp
  · split
    · simp
    · split <;> simp

theorem executeOne_role (tools : List CapabilitySpec) (md : Metadata)
    (r : InvocationRequest) : (executeOne tools md r).1.role = Role.tool := by
  simp only [executeOne]
  split
  · simp
  · split
    · simp
    · split <;> simp

theorem executeRequests_msgs_len (tools : List CapabilitySpec) (md : Metadata) :
    ∀ reqs : List InvocationRequest,
      (executeRequests tools md reqs).1.length = reqs.length := by
  intro reqs
  induction reqs with
  | nil => rfl
  | cons r rest ih => simp [executeRequests, ih]

theorem executeRequests_caps_le (tools : List CapabilitySpec) (md : Metadata) :
    ∀ reqs : List InvocationRequest,
      (executeRequests tools md reqs).2.length ≤ reqs.length := by
  intro reqs
  induction reqs with
  | nil => simp [executeRequests]
  | cons r rest ih =>
    have h1 := executeOne_caps_le tools md r
    simp only [executeRequests, List.length_append, List.length_cons]
    omega

theorem executeRequests_corr (tools : List CapabilitySpec) (md : Metadata) :
    ∀ reqs : List InvocationRequest,
      (executeRequests tools md reqs).1.map (fun m => m.correlation_id)
        = reqs.map (fun r => some r.id) := by
  intro reqs
  induction reqs with
  | nil => rfl
  | cons r rest ih => simp [executeRequests, ih, executeOne_corr]

theorem executeRequests_roles (tools : List CapabilitySpec) (md : Metadata) :
    ∀ (reqs : List InvocationRequest) (m : Message),
      m ∈ (executeRequests tools md reqs).1 → m.role = Role.tool := by
  intro reqs
  induction reqs with
  | nil => intro m hm; simp [executeRequests] at hm
  | cons r rest ih =>
    intro m hm
    simp only [executeRequests, List.mem_cons] at hm
    rcases hm with hm | hm
    · rw [hm]; exact executeOne_role tools md r
    · exact ih m hm

/-! ## Loop invariants -/

theorem loop_calls_le (backend : Backend) (cfg : AgentConfig) (md : Metadata) :
    ∀ (n : Nat) (st : LoopState) (c : String),
      (TenxAgent.loop backend cfg md n st c).1.calls ≤ st.calls + n := by
  intro n
  induction n with
  | zero => intro st c; simp [TenxAgent.loop]
  | succ n ih =>
    intro st c
    simp only [TenxAgent.loop]
    split
    · simp only [genStep_calls]
      omega
    · split
      · simp only [genStep_calls]
        omega
      · refine le_trans (ih _ _) ?_
        simp only [execStep_calls, genStep_calls]
        omega

theorem loop_mono (backend : Backend) (cfg : AgentConfig) (md : Metadata) :
    ∀ (n : Nat) (st : LoopState) (c : String),
      st.calls ≤ (TenxAgent.loop backend cfg md n st c).1.calls
      ∧ st.input_tokens ≤ (TenxAgent.loop backend cfg md n st c).1.input_tokens
      ∧ st.output_tokens ≤ (TenxAgent.loop backend cfg md n st c).1.output_tokens := by
  intro n
  induction n with
  | zero => intro st c; simp [TenxAgent.loop]
  | succ n ih =>
    intro st c
    simp only [TenxAgent.loop]
    split
    · refine ⟨?_, ?_, ?_⟩ <;> simp
    · split
      · refine ⟨?_, ?_, ?_⟩ <;> simp
      · refine ⟨?_, ?_, ?_⟩
        · exact le_trans (by simp) (ih _ _).1
        · exact le_trans (by simp) (ih _ _).2.1
        · exact le_trans (by simp) (ih _ _).2.2

theorem loop_calls_succ (backend : Backend) (cfg : AgentConfig) (md : Metadata)
    (n : Nat) (st : LoopState) (c : String) :
    st.calls + 1 ≤ (TenxAgent.loop backend cfg md (n + 1) st c).1.calls := by
  simp only [TenxAgent.loop]
  split
  · simp
  · split
    · simp
    · exact le_trans (by simp) (loop_mono backend cfg md n _ _).1

theorem loop_stateful (backend : Backend) (cfg : AgentConfig) (md : Metadata) :
    ∀ (n : Nat) (st : LoopState) (c : String),
      (TenxAgent.loop backend cfg md n st c).1.stateful = st.stateful := by
  intro n
  induction n with
  | zero => intro st c; rfl
  | succ n ih =>
    intro st c
    simp only [TenxAgent.loop]
    split
    · simp
    · split
      · simp
      · rw [ih]; simp

theorem appendMsgs_store_stateless (ms : List Message) :
    ∀ st : LoopState, st.stateful = none → (appendMsgs st ms).store = st.store := by
  induction ms with
  | nil => intro st _; rfl
  | cons m rest ih =>
    intro st h
    show (appendMsgs (appendMsg st m) rest).store = st.store
    rw [ih (appendMsg st m) (by simp [h])]
    simp [appendMsg, sessionAppend, h]

theorem loop_store_stateless (backend : Backend) (cfg : AgentConfig) (md : Metadata) :
    ∀ (n : Nat) (st : LoopState) (c : String), st.stateful = none →
      (TenxAgent.loop backend cfg md n st c).1.store = st.store := by
  intro n
  induction n with
  | zero => intro st c _; rfl
  | succ n ih =>
    intro st c h
    simp only [TenxAgent.loop]
    split
    · simp [TenxAgent.genStep, sessionAppend, h]
    · split
      · simp [TenxAgent.genStep, sessionAppend, h]
      · rw [ih]
        · show (TenxAgent.execStep _ _ _ _).store = st.store
          simp only [TenxAgent.execStep]
          rw [appendMsgs_store_stateless _ _ (by simp [h])]
          simp [TenxAgent.genStep, sessionAppend, h]
        · simp [h]

theorem listExtTrans {a b c : List Message} (h1 : ∃ t, b = a ++ t)
    (h2 : ∃ t, c = b ++ t) : ∃ t, c = a ++ t := by
  obtain ⟨t1, ht1⟩ := h1
  obtain ⟨t2, ht2⟩ := h2
  exact ⟨t1 ++ t2, by rw [ht2, ht1, List.append_assoc]⟩

theorem loop_store_ext (backend : Backend) (cfg : AgentConfig) (md : Metadata) :
    ∀ (n : Nat) (st : LoopState) (c : String) (sid : String),
      ∃ t, lookupD (TenxAgent.loop backend cfg md n st c).1.store sid
        = lookupD st.store sid ++ t := by
  intro n
  induction n with
  | zero => intro st c sid; exact ⟨[], by simp [TenxAgent.loop]⟩
  | succ n ih =>
    intro st c sid
    simp only [TenxAgent.loop]
    split
    · by_cases hst : st.stateful = some sid
      · exact ⟨[(backend st.messages cfg.tools md).message],
          by simp [lookupD_genStep, hst]⟩
      · exact ⟨[], by simp [lookupD_genStep, hst]⟩
    · split
      · by_cases hst : st.stateful = some sid
        · exact ⟨[(backend st.messages cfg.tools md).message],
            by simp [lookupD_genStep, hst]⟩
        · exact ⟨[], by simp [lookupD_genStep, hst]⟩
      · refine listExtTrans ?_ (ih _ _ sid)
        by_cases hst : st.stateful = some sid
        · exact ⟨(backend st.messages cfg.tools md).message ::
              (executeRequests cfg.tools md
                (backend st.messages cfg.tools md).message.invocation_requests).1,
            by simp [lookupD_execStep, lookupD_genStep, hst, List.append_assoc]⟩
        · exact ⟨[], by simp [lookupD_execStep, lookupD_genStep, hst]⟩

theorem loop_growth (backend : Backend) (cfg : AgentConfig) (md : Metadata) :
    ∀ (n : Nat) (st : LoopState) (c : String) (sid : String), st.stateful = some sid →
      (lookupD st.store sid).length
          + (TenxAgent.loop backend cfg md n st c).1.capabilities_used.length
          + (TenxAgent.loop backend cfg md n st c).1.calls
        ≤ (lookupD (TenxAgent.loop backend cfg md n st c).1.store sid).length
          + st.capabilities_used.length + st.calls := by
  intro n
  induction n with
  | zero => intro st c sid _; simp [TenxAgent.loop]
  | succ n ih =>
    intro st c sid h
    simp only [TenxAgent.loop]
    split
    · simp [lookupD_genStep, h]; omega
    · split
      · simp [lookupD_genStep, h]; omega
      · have hih := ih
          (TenxAgent.execStep cfg md
            (TenxAgent.genStep st (backend st.messages cfg.tools md))
            (backend st.messages cfg.tools md).message.invocation_requests)
          ((backend st.messages cfg.tools md).message.content) sid (by simp [h])
        have hcaps := executeRequests_caps_le cfg.tools md
          (backend st.messages cfg.tools md).message.invocation_requests
        have hmsgs := executeRequests_msgs_len cfg.tools md
          (backend st.messages cfg.tools md).message.invocation_requests
        simp only [lookupD_execStep, lookupD_genStep, genStep_stateful, h, if_pos,
          execStep_caps, execStep_calls, genStep_caps, genStep_calls,
          List.length_append, List.length_cons] at hih ⊢
        omega

theorem loop_zero_eq (backend : Backend) (cfg : AgentConfig) (md : Metadata)
    (st : LoopState) (c : String) :
    TenxAgent.loop backend cfg md 0 st c = (st, c) := rfl

theorem loop_succ_eq (backend : Backend) (cfg : AgentConfig) (md : Metadata)
    (n : Nat) (st : LoopState) (c : String) :
    TenxAgent.loop backend cfg md (n + 1) st c =
      (let gr := backend st.messages cfg.tools md
       let st2 := TenxAgent.genStep st gr
       if cfg.max_tokens < st2.input_tokens + st2.output_tokens then
         (st2, gr.message.content)
       else if gr.message.invocation_requests.isEmpty then
         (st2, gr.message.content)
       else
         TenxAgent.loop backend cfg md n
           (TenxAgent.execStep cfg md st2 gr.message.invocation_requests)
           gr.message.content) := rfl

theorem loop_tokens_succ (backend : Backend) (cfg : AgentConfig) (md : Metadata)
    (n : Nat) (st : LoopState) (c : String) :
    st.input_tokens + (backend st.messages cfg.tools md).input_tokens
        + (st.output_tokens + (backend st.messages cfg.tools md).output_tokens)
      ≤ (TenxAgent.loop backend cfg md (n + 1) st c).1.input_tokens
        + (TenxAgent.loop backend cfg md (n + 1) st c).1.output_tokens := by
  simp only [TenxAgent.loop]
  split
  · simp only [genStep_input_tokens, genStep_output_tokens]
    omega
  · split
    · simp only [genStep_input_tokens, genStep_output_tokens]
      omega
    · have h1 := (loop_mono backend cfg md n
        (TenxAgent.execStep cfg md
          (TenxAgent.genStep st (backend st.messages cfg.tools md))
          (backend st.messages cfg.tools md).message.invocation_requests)
        ((backend st.messages cfg.tools md).message.content)).2.1
      have h2 := (loop_mono backend cfg md n
        (TenxAgent.execStep cfg md
          (TenxAgent.genStep st (backend st.messages cfg.tools md))
          (backend st.messages cfg.tools md).message.invocation_requests)
        ((backend st.messages cfg.tools md).message.content)).2.2
      simp only [execStep_input_tokens, execStep_output_tokens,
        genStep_input_tokens, genStep_output_tokens] at h1 h2
      omega

theorem executeRequests_roles_map (tools : List CapabilitySpec) (md : Metadata) :
    ∀ reqs : List InvocationRequest,
      (executeRequests tools md reqs).1.map (fun m => m.role)
        = reqs.map (fun _ => Role.tool) := by
  intro reqs
  induction reqs with
  | nil => rfl
  | cons r rest ih => simp [executeRequests, ih, executeOne_role]

@[simp] theorem initState_messages (cfg : AgentConfig) (q sid : String)
    (eh : Option (List Message)) (store : SessionStore) :
    (TenxAgent.initState cfg q sid eh store).messages
      = buildContext cfg (initialHistory eh store sid) q := by
  cases eh <;> rfl

@[simp] theorem initState_calls (cfg : AgentConfig) (q sid : String)
    (eh : Option (List Message)) (store : SessionStore) :
    (TenxAgent.initState cfg q sid eh store).calls = 0 := by
  cases eh <;> rfl

@[simp] theorem initState_input_tokens (cfg : AgentConfig) (q sid : String)
    (eh : Option (List Message)) (store : SessionStore) :
    (TenxAgent.initState cfg q sid eh store).input_tokens = 0 := by
  cases eh <;> rfl

@[simp] theorem initState_output_tokens (cfg : AgentConfig) (q sid : String)
    (eh : Option (List Message)) (store : SessionStore) :
    (TenxAgent.initState cfg q sid eh store).output_tokens = 0 := by
  cases eh <;> rfl

@[simp] theorem initState_caps (cfg : AgentConfig) (q sid : String)
    (eh : Option (List Message)) (store : SessionStore) :
    (TenxAgent.initState cfg q sid eh store).capabilities_used = [] := by
  cases eh <;> rfl

theorem initState_stateful_none (cfg : AgentConfig) (q sid : String)
    (h : List Message) (store : SessionStore) :
    (TenxAgent.initState cfg q sid (some h) store).stateful = none := rfl

theorem initState_stateful_some (cfg : AgentConfig) (q sid : String)
    (store : SessionStore) :
    (TenxAgent.initState cfg q sid none store).stateful = some sid := rfl

theorem initState_store_explicit (cfg : AgentConfig) (q sid : String)
    (h : List Message) (store : SessionStore) :
    (TenxAgent.initState cfg q sid (some h) store).store = store := rfl

theorem lookupD_initState (cfg : AgentConfig) (q sid : String)
    (store : SessionStore) (sid2 : String) :
    lookupD (TenxAgent.initState cfg q sid none store).store sid2 =
      if sid2 = sid then lookupD store sid ++ [{ role := Role.user, content := q }]
      else lookupD store sid2 := by
  simp [TenxAgent.initState, lookupD_storeSet]

/-! ## Claim theorems -/

/-- C3: manual-dialect parsing is total and never raises (it is a total
function and always passes the raw content through): the input text
"Hello! How are you?" (containing no JSON) yields zero invocation requests
and the content unchanged, and the input consisting of the JSON object
with a `tool_calls` entry naming `calculator` with arguments
`expression = 2+2` yields exactly one InvocationRequest named `calculator`
with those arguments. -/
theorem c3_manual_dialect_parsing :
    (∀ s : String, (parseManualContent s).content = s)
    ∧ (parseManualContent "Hello! How are you?").invocation_requests = []
    ∧ (parseManualContent "Hello! How are you?").content = "Hello! How are you?"
    ∧ (parseManualContent "\x7b\"tool_calls\":[\x7b\"name\":\"calculator\",\"arguments\":\x7b\"expression\":\"2+2\"\x7d\x7d]\x7d").invocation_requests.map
        (fun r => (r.name, r.arguments))
      = [("calculator", [("expression", Json.str "2+2")])] := by
  refine ⟨?_, ?_, ?_, ?_⟩
  · intro s
    simp only [parseManualContent]
    split <;> rfl
  · rfl
  · rfl
  · rfl

/-- C4: a run invoked with an explicit history sequence never touches the
Session Store: the store returned by the run is the store it was given,
so the stored content of every session id is identical before and after. -/
theorem c4_explicit_history_leaves_store (backend : Backend) (cfg : AgentConfig)
    (query sid : String) (h : List Message) (md : Metadata) (store : SessionStore) :
    (TenxAgent.run backend cfg query sid (some h) md store).2 = store := by
  show (TenxAgent.runState backend cfg query sid (some h) md store).1.store = store
  unfold TenxAgent.runState
  rw [loop_store_stateless]
  · rfl
  · rfl

/-- C6: the tool-role messages produced for one generation's invocation
requests are correlated to the requests in the exact order the requests
were produced (their correlation ids are the request ids in order, and
every produced message has the tool role), and appending them to a session
puts them at the tail of the stored history in that same order. -/
theorem c6_tool_messages_in_request_order (tools : List CapabilitySpec)
    (md : Metadata) (reqs : List InvocationRequest) (store : SessionStore)
    (sid : String) :
    (executeRequests tools md reqs).1.map (fun m => m.correlation_id)
        = reqs.map (fun r => some r.id)
    ∧ (executeRequests tools md reqs).1.map (fun m => m.role)
        = reqs.map (fun _ => Role.tool)
    ∧ lookupD (appendMsgs
          { messages := [], store := store, stateful := some sid, calls := 0,
            input_tokens := 0, output_tokens := 0, capabilities_used := [] }
          (executeRequests tools md reqs).1).store sid
        = lookupD store sid ++ (executeRequests tools md reqs).1 := by
  refine ⟨executeRequests_corr tools md reqs, executeRequests_roles_map tools md reqs, ?_⟩
  rw [lookupD_appendMsgs]
  simp

/-- C1: for every configured maximum-calls budget and every backend whose
every generation returns at least one invocation request, a run performs
at most `max_llm_calls` generations; and the budget check is post-hoc,
never pre-emptive: whenever the budget is positive the first generation is
performed (whatever the token budget, even zero) and its token usage is
contained in the usage the run accumulates. -/
theorem c1_budget_bounds_generations (backend : Backend) (cfg : AgentConfig)
    (query sid : String) (eh : Option (List Message)) (md : Metadata)
    (store : SessionStore)
    (halways : ∀ (msgs : List Message) (tools : List CapabilitySpec) (m : Metadata),
      (backend msgs tools m).message.invocation_requests.isEmpty = false) :
    (TenxAgent.runState backend cfg query sid eh md store).1.calls ≤ cfg.max_llm_calls
    ∧ (1 ≤ cfg.max_llm_calls →
        1 ≤ (TenxAgent.runState backend cfg query sid eh md store).1.calls
        ∧ (backend (buildContext cfg (initialHistory eh store sid) query) cfg.tools md).input_tokens
            + (backend (buildContext cfg (initialHistory eh store sid) query) cfg.tools md).output_tokens
          ≤ (TenxAgent.runState backend cfg query sid eh md store).1.input_tokens
            + (TenxAgent.runState backend cfg query sid eh md store).1.output_tokens) := by
  constructor
  · have h := loop_calls_le backend cfg md cfg.max_llm_calls
      (TenxAgent.initState cfg query sid eh store) ""
    simpa [TenxAgent.runState] using h
  · intro hpos
    obtain ⟨k, hk⟩ : ∃ k, cfg.max_llm_calls = k + 1 := ⟨cfg.max_llm_calls - 1, by omega⟩
    constructor
    · have hc := loop_calls_succ backend cfg md k
        (TenxAgent.initState cfg query sid eh store) ""
      unfold TenxAgent.runState
      rw [hk]
      simpa using hc
    · have ht := loop_tokens_succ backend cfg md k
        (TenxAgent.initState cfg query sid eh store) ""
      unfold TenxAgent.runState
      rw [hk]
      simpa using ht

/-- A concrete backend that always requests one capability call and
reports one input and one output token per generation. -/
def demoBackend : Backend := fun _ _ _ =>
  { message :=
      { role := Role.assistant, content := "calling",
        invocation_requests := [{ id := "1", name := "t", arguments := [] }] }
    input_tokens := 1
    output_tokens := 1 }

/-- A concrete Agent Loop configuration with no registered tools. -/
def demoCfg : AgentConfig :=
  { system_prompt := "sys", tools := [], max_llm_calls := 2, max_tokens := 100 }

/-- Witness for C1: the bound holds at a concrete always-requesting
backend and concrete configuration. -/
theorem c1_budget_bounds_generations_witness :
    (∀ (msgs : List Message) (tools : List CapabilitySpec) (m : Metadata),
      (demoBackend msgs tools m).message.invocation_requests.isEmpty = false)
    ∧ ((TenxAgent.runState demoBackend demoCfg "q" "s1" none [] []).1.calls
          ≤ demoCfg.max_llm_calls
      ∧ (1 ≤ demoCfg.max_llm_calls →
          1 ≤ (TenxAgent.runState demoBackend demoCfg "q" "s1" none [] []).1.calls
          ∧ (demoBackend (buildContext demoCfg (initialHistory none [] "s1") "q") demoCfg.tools []).input_tokens
              + (demoBackend (buildContext demoCfg (initialHistory none [] "s1") "q") demoCfg.tools []).output_tokens
            ≤ (TenxAgent.runState demoBackend demoCfg "q" "s1" none [] []).1.input_tokens
              + (TenxAgent.runState demoBackend demoCfg "q" "s1" none [] []).1.output_tokens)) :=
  ⟨fun _ _ _ => rfl,
    c1_budget_bounds_generations demoBackend demoCfg "q" "s1" none [] []
      (fun _ _ _ => rfl)⟩

/-- C2: with maximum calls configured to 1 and a backend that always
requests a capability, run terminates after exactly 1 generation and
returns a RunResult whose content is that single generation's content
(possibly empty or partial) and whose usage is the usage accumulated so
far, namely that generation's tokens; being a total function, it can
neither raise nor hang. -/
theorem c2_single_call_terminates (backend : Backend) (cfg : AgentConfig)
    (query sid : String) (eh : Option (List Message)) (md : Metadata)
    (store : SessionStore)
    (hmax : cfg.max_llm_calls = 1)
    (halways : ∀ (msgs : List Message) (tools : List CapabilitySpec) (m : Metadata),
      (backend msgs tools m).message.invocation_requests.isEmpty = false) :
    (TenxAgent.runState backend cfg query sid eh md store).1.calls = 1
    ∧ (TenxAgent.run backend cfg query sid eh md store).1.content
        = (backend (buildContext cfg (initialHistory eh store sid) query) cfg.tools md).message.content
    ∧ (TenxAgent.run backend cfg query sid eh md store).1.total_tokens
        = (backend (buildContext cfg (initialHistory eh store sid) query) cfg.tools md).input_tokens
          + (backend (buildContext cfg (initialHistory eh store sid) query) cfg.tools md).output_tokens := by
  have h01 : cfg.max_llm_calls = 0 + 1 := by omega
  have hreq := halways (TenxAgent.initState cfg query sid eh store).messages cfg.tools md
  unfold TenxAgent.run TenxAgent.runState
  rw [h01, loop_succ_eq backend cfg md 0]
  simp only [initState_messages] at hreq
  simp only [initState_messages, hreq, loop_zero_eq]
  split
  · refine ⟨by simp, rfl, by simp⟩
  · refine ⟨by simp, rfl, by simp⟩

/-- Witness for C2 at a concrete always-requesting backend with a
maximum-calls budget of 1. -/
theorem c2_single_call_terminates_witness :
    ({ demoCfg with max_llm_calls := 1 } : AgentConfig).max_llm_calls = 1
    ∧ ((TenxAgent.runState demoBackend { demoCfg with max_llm_calls := 1 } "q" "s1" none [] []).1.calls = 1
      ∧ (TenxAgent.run demoBackend { demoCfg with max_llm_calls := 1 } "q" "s1" none [] []).1.content
          = (demoBackend (buildContext { demoCfg with max_llm_calls := 1 } (initialHistory none [] "s1") "q") ({ demoCfg with max_llm_calls := 1 } : AgentConfig).tools []).message.content
      ∧ (TenxAgent.run demoBackend { demoCfg with max_llm_calls := 1 } "q" "s1" none [] []).1.total_tokens
          = (demoBackend (buildContext { demoCfg with max_llm_calls := 1 } (initialHistory none [] "s1") "q") ({ demoCfg with max_llm_calls := 1 } : AgentConfig).tools []).input_tokens
            + (demoBackend (buildContext { demoCfg with max_llm_calls := 1 } (initialHistory none [] "s1") "q") ({ demoCfg with max_llm_calls := 1 } : AgentConfig).tools []).output_tokens) :=
  ⟨rfl,
    c2_single_call_terminates demoBackend { demoCfg with max_llm_calls := 1 }
      "q" "s1" none [] [] rfl (fun _ _ _ => rfl)⟩

theorem initialHistory_none (store : SessionStore) (sid : String) :
    initialHistory none store sid = lookupD store sid := rfl

/-- C5: when a generation's invocation request names a capability that is
not registered, the run does not fail: the loop appends a tool-role
message whose content is exactly the string
`Error: unknown capability '<name>'` (correlated to the request) to the
session, and proceeds to a subsequent generation (at least two generations
are performed when the budget allows it). -/
theorem c5_unknown_capability_self_heals (backend : Backend) (cfg : AgentConfig)
    (query sid : String) (md : Metadata) (store : SessionStore)
    (r : InvocationRequest)
    (hbudget : 2 ≤ cfg.max_llm_calls)
    (hreq : (backend (buildContext cfg (lookupD store sid) query) cfg.tools md).message.invocation_requests = [r])
    (hunknown : findTool cfg.tools r.name = none)
    (htok : (backend (buildContext cfg (lookupD store sid) query) cfg.tools md).input_tokens
        + (backend (buildContext cfg (lookupD store sid) query) cfg.tools md).output_tokens
        ≤ cfg.max_tokens) :
    2 ≤ (TenxAgent.runState backend cfg query sid none md store).1.calls
    ∧ ({ role := Role.tool,
         content := "Error: unknown capability \x27" ++ r.name ++ "\x27",
         invocation_requests := [], correlation_id := some r.id } : Message)
        ∈ lookupD (TenxAgent.runState backend cfg query sid none md store).1.store sid := by
  obtain ⟨k, hk⟩ : ∃ k, cfg.max_llm_calls = (k + 1) + 1 :=
    ⟨cfg.max_llm_calls - 2, by omega⟩
  unfold TenxAgent.runState
  rw [hk, loop_succ_eq backend cfg md (k + 1)]
  simp only [initState_messages, initialHistory_none, hreq, genStep_input_tokens,
    genStep_output_tokens, initState_input_tokens, initState_output_tokens,
    Nat.zero_add, List.isEmpty_cons, Bool.false_eq_true, if_false]
  have hcond : ¬ cfg.max_tokens <
      (backend (buildContext cfg (lookupD store sid) query) cfg.tools md).input_tokens
      + (backend (buildContext cfg (lookupD store sid) query) cfg.tools md).output_tokens := by
    omega
  rw [if_neg hcond]
  constructor
  · have hc := loop_calls_succ backend cfg md k
      (TenxAgent.execStep cfg md
        (TenxAgent.genStep (TenxAgent.initState cfg query sid none store)
          (backend (buildContext cfg (lookupD store sid) query) cfg.tools md)) [r])
      ((backend (buildContext cfg (lookupD store sid) query) cfg.tools md).message.content)
    simp only [execStep_calls, genStep_calls, initState_calls] at hc
    omega
  · obtain ⟨t, ht⟩ := loop_store_ext backend cfg md (k + 1)
      (TenxAgent.execStep cfg md
        (TenxAgent.genStep (TenxAgent.initState cfg query sid none store)
          (backend (buildContext cfg (lookupD store sid) query) cfg.tools md)) [r])
      ((backend (buildContext cfg (lookupD store sid) query) cfg.tools md).message.content)
      sid
    rw [ht]
    apply List.mem_append_left
    have hstf : (TenxAgent.genStep (TenxAgent.initState cfg query sid none store)
        (backend (buildContext cfg (lookupD store sid) query) cfg.tools md)).stateful
          = some sid := rfl
    rw [lookupD_execStep, if_pos hstf]
    apply List.mem_append_right
    simp [executeRequests, executeOne, hunknown]

/-- Witness for C5: with the concrete always-requesting backend, whose
request names the unregistered capability `t`, the loop performs a second
generation and the session holds the synthesized error message. -/
theorem c5_unknown_capability_self_heals_witness :
    2 ≤ demoCfg.max_llm_calls
    ∧ findTool demoCfg.tools "t" = none
    ∧ (2 ≤ (TenxAgent.runState demoBackend demoCfg "q" "s1" none [] []).1.calls
      ∧ ({ role := Role.tool,
           content := "Error: unknown capability \x27" ++ "t" ++ "\x27",
           invocation_requests := [], correlation_id := some "1" } : Message)
          ∈ lookupD (TenxAgent.runState demoBackend demoCfg "q" "s1" none [] []).1.store "s1") :=
  ⟨by decide, rfl,
    c5_unknown_capability_self_heals demoBackend demoCfg "q" "s1" [] []
      { id := "1", name := "t", arguments := [] }
      (by decide) rfl rfl (by decide)⟩

/-- C7: an Agent-as-Capability invocation takes the single text argument,
drives the inner Agent Loop against a fresh session independent of the
outer loop's session (a run on an empty store of its own), returns the
inner run's final textual content, and, however many generations the
nested loop performs (the inner backend and configuration are arbitrary),
contributes exactly one entry to the outer capabilities_used accounting
per call. -/
theorem c7_agent_as_capability (innerBackend : Backend) (innerCfg : AgentConfig)
    (nm description : String) (args : List (String × Json)) (md : Metadata)
    (r : InvocationRequest) (hname : r.name = nm) :
    (create_tenx_agent_tool innerBackend innerCfg nm description).execute args md
        = Except.ok ((TenxAgent.run innerBackend innerCfg (argText args)
            "agent_tool_session" none md []).1.content)
    ∧ (executeRequests [create_tenx_agent_tool innerBackend innerCfg nm description]
          md [r]).2
        = [nm] := by
  constructor
  · rfl
  · simp [executeRequests, executeOne, findTool, create_tenx_agent_tool, hname]

/-- A concrete backend that always produces a final answer with no
invocation requests. -/
def demoFinalBackend : Backend := fun _ _ _ =>
  { message := { role := Role.assistant, content := "42" }
    input_tokens := 1
    output_tokens := 1 }

/-- Witness for C7 at a concrete nested agent. -/
theorem c7_agent_as_capability_witness :
    ("math_specialist" : String) = "math_specialist"
    ∧ ((create_tenx_agent_tool demoFinalBackend demoCfg "math_specialist" "a math specialist").execute
          [("input", Json.str "2+2")] []
        = Except.ok ((TenxAgent.run demoFinalBackend demoCfg
            (argText [("input", Json.str "2+2")]) "agent_tool_session" none [] []).1.content)
      ∧ (executeRequests
            [create_tenx_agent_tool demoFinalBackend demoCfg "math_specialist" "a math specialist"]
            [] [{ id := "1", name := "math_specialist",
                  arguments := [("input", Json.str "2+2")] }]).2
          = ["math_specialist"]) :=
  ⟨rfl,
    c7_agent_as_capability demoFinalBackend demoCfg "math_specialist" "a math specialist"
      [("input", Json.str "2+2")] []
      { id := "1", name := "math_specialist", arguments := [("input", Json.str "2+2")] }
      rfl⟩

/-- C8: session histories are append-only and strictly growing: a stateful
run only ever appends to the stored sessions (for every session id the
pre-run content is a prefix of the post-run content), and, when the call
budget is positive, the stored history of the run's session grows by at
least 2 (the user turn and an assistant turn) plus one message per
capability invocation recorded in capabilities_used. -/
theorem c8_append_only_growth (backend : Backend) (cfg : AgentConfig)
    (query sid : String) (md : Metadata) (store : SessionStore)
    (hbudget : 1 ≤ cfg.max_llm_calls) :
    (∀ sid2, ∃ t,
        lookupD (TenxAgent.runState backend cfg query sid none md store).1.store sid2
          = lookupD store sid2 ++ t)
    ∧ (lookupD store sid).length + 2
        + (TenxAgent.runState backend cfg query sid none md store).1.capabilities_used.length
      ≤ (lookupD (TenxAgent.runState backend cfg query sid none md store).1.store sid).length := by
  obtain ⟨k, hk⟩ : ∃ k, cfg.max_llm_calls = k + 1 := ⟨cfg.max_llm_calls - 1, by omega⟩
  constructor
  · intro sid2
    unfold TenxAgent.runState
    refine listExtTrans ?_ (loop_store_ext backend cfg md cfg.max_llm_calls
      (TenxAgent.initState cfg query sid none store) "" sid2)
    rw [lookupD_initState]
    by_cases h : sid2 = sid
    · rw [if_pos h]
      exact ⟨[{ role := Role.user, content := query }], by rw [h]⟩
    · rw [if_neg h]
      exact ⟨[], by simp⟩
  · have hg := loop_growth backend cfg md cfg.max_llm_calls
      (TenxAgent.initState cfg query sid none store) "" sid
      (initState_stateful_some cfg query sid store)
    have hc : 1 ≤ (TenxAgent.loop backend cfg md cfg.max_llm_calls
        (TenxAgent.initState cfg query sid none store) "").1.calls := by
      rw [hk]
      have hs := loop_calls_succ backend cfg md k
        (TenxAgent.initState cfg query sid none store) ""
      simpa using hs
    unfold TenxAgent.runState
    simp only [lookupD_initState, initState_caps, initState_calls,
      eq_self_iff_true, if_true, List.length_append, List.length_cons,
      List.length_nil] at hg
    omega

/-- Witness for C8 at a concrete finalizing backend on an empty store. -/
theorem c8_append_only_growth_witness :
    1 ≤ demoCfg.max_llm_calls
    ∧ ((∀ sid2, ∃ t,
          lookupD (TenxAgent.runState demoFinalBackend demoCfg "q" "s1" none [] []).1.store sid2
            = lookupD [] sid2 ++ t)
      ∧ (lookupD [] "s1").length + 2
          + (TenxAgent.runState demoFinalBackend demoCfg "q" "s1" none [] []).1.capabilities_used.length
        ≤ (lookupD (TenxAgent.runState demoFinalBackend demoCfg "q" "s1" none [] []).1.store "s1").length) :=
  ⟨by decide,
    c8_append_only_growth demoFinalBackend demoCfg "q" "s1" [] [] (by decide)⟩

/-- C9: the example CalculatorTool.execute is total over all input strings
and never raises (it is a total function of the expression and of the
evaluator outcome): if the expression contains any character outside the
whitelist `0123456789+-*/().,e ` it returns the string
`Error: Only basic mathematical operations are allowed` whatever the
evaluator would do (the expression is not evaluated), and an exception
raised during evaluation is caught and returned as a string beginning with
`Error: `.  This holds for the `eval`-backed test tool and for the
`safe_evaluate`-backed example tools alike. -/
theorem c9_calculator_execute_total (evalExpr : String → Except String String)
    (expression : String) :
    ((∃ c ∈ expression.toList, allowed_chars.contains c = false) →
        (∀ ev2 : String → Except String String,
          CalculatorTool.execute ev2 expression
            = "Error: Only basic mathematical operations are allowed")
      ∧ (∀ ev2 : String → Except String String,
          ExampleCalculatorTool.execute ev2 expression
            = "Error: Only basic mathematical operations are allowed"))
    ∧ (∀ e, evalExpr expression = Except.error e →
        (∃ rest, CalculatorTool.execute evalExpr expression = "Error: " ++ rest)
      ∧ (∃ rest, ExampleCalculatorTool.execute evalExpr expression = "Error: " ++ rest)) := by
  constructor
  · rintro ⟨c, hc, hbad⟩
    have hall : expression.toList.all (fun ch => allowed_chars.contains ch) = false := by
      cases hx : expression.toList.all (fun ch => allowed_chars.contains ch) with
      | false => rfl
      | true =>
        rw [List.all_eq_true] at hx
        have hcontra := hx c hc
        rw [hbad] at hcontra
        cases hcontra
    constructor
    · intro ev2
      unfold CalculatorTool.execute
      rw [hall]
      rfl
    · intro ev2
      unfold ExampleCalculatorTool.execute
      rw [hall]
      rfl
  · intro e he
    constructor
    · by_cases hall : expression.toList.all (fun ch => allowed_chars.contains ch) = true
      · refine ⟨e, ?_⟩
        unfold CalculatorTool.execute
        rw [hall, he]
        rfl
      · rw [Bool.not_eq_true] at hall
        refine ⟨"Only basic mathematical operations are allowed", ?_⟩
        unfold CalculatorTool.execute
        rw [hall]
        rfl
    · by_cases hall : expression.toList.all (fun ch => allowed_chars.contains ch) = true
      · refine ⟨e, ?_⟩
        unfold ExampleCalculatorTool.execute
        rw [hall, he]
        rfl
      · rw [Bool.not_eq_true] at hall
        refine ⟨"Only basic mathematical operations are allowed", ?_⟩
        unfold ExampleCalculatorTool.execute
        rw [hall]
        rfl

/-- Witness for C9: the expression `2+x` contains the forbidden character
`x` and yields the whitelist error, and a raised exception on `1/0` comes
back as an `Error: `-prefixed string. -/
theorem c9_calculator_execute_total_witness :
    ((fun _ => Except.error "division by zero") "1/0"
        = (Except.error "division by zero" : Except String String))
    ∧ CalculatorTool.execute (fun _ => Except.error "division by zero") "2+x"
        = "Error: Only basic mathematical operations are allowed"
    ∧ (∃ rest, CalculatorTool.execute (fun _ => Except.error "division by zero") "1/0"
        = "Error: " ++ rest) :=
  ⟨rfl,
    ((c9_calculator_execute_total (fun _ => Except.error "division by zero") "2+x").1
      ⟨'x', by decide, by decide⟩).1 (fun _ => Except.error "division by zero"),
    ((c9_calculator_execute_total (fun _ => Except.error "division by zero") "1/0").2
      "division by zero" rfl).1⟩

theorem strExt {a x : String} (h : ∃ t, x = a ++ t) (y : String) :
    ∃ t, x ++ y = a ++ t := by
  obtain ⟨t, ht⟩ := h
  exact ⟨t ++ y, by rw [ht, String.append_assoc]⟩

/-- C10: MetadataAwareCalculatorTool.execute denies power operations by
default: for every expression containing the substring `**`, if metadata
is None, lacks a `user_role` key, or carries a `user_role` equal to
`"basic"`, execute returns
`Error: Power operations require elevated privileges` for every possible
evaluator (the expression is not evaluated); for any other `user_role`
value the expression is evaluated and a string is returned: a successful
evaluation yields a `Result: `-prefixed string carrying the value, and a
raised exception is caught into an `Error: `-prefixed string. -/
theorem c10_power_requires_privileges (evalRound : String → Json → Except String String)
    (expression : String) (metadata : Option (List (String × Json)))
    (hpow : hasSubstr expression "**" = true) :
    ((metadata = none
        ∨ (∃ md0, metadata = some md0 ∧ pyLookup md0 "user_role" = none)
        ∨ (∃ md0, metadata = some md0 ∧ pyLookup md0 "user_role" = some (Json.str "basic"))) →
      ∀ ev2 : String → Json → Except String String,
        MetadataAwareCalculatorTool.execute ev2 expression metadata
          = "Error: Power operations require elevated privileges")
    ∧ (∀ md0 rrole, metadata = some md0 → pyLookup md0 "user_role" = some rrole →
        jsonIsStr rrole "basic" = false →
        (∀ v, evalRound expression (pyGet md0 "precision" (Json.num "2")) = Except.ok v →
          ∃ tail, MetadataAwareCalculatorTool.execute evalRound expression metadata
            = ("Result: " ++ v) ++ tail)
        ∧ (∀ e, evalRound expression (pyGet md0 "precision" (Json.num "2")) = Except.error e →
          MetadataAwareCalculatorTool.execute evalRound expression metadata
            = "Error: " ++ e)) := by
  constructor
  · intro hdis ev2
    have hrole : jsonIsStr (pyGet (metadata.getD []) "user_role" (Json.str "basic")) "basic"
        = true := by
      rcases hdis with h | ⟨md0, hmd, hl⟩ | ⟨md0, hmd, hl⟩
      · rw [h]; rfl
      · rw [hmd]; simp [pyGet, hl, jsonIsStr]
      · rw [hmd]; simp [pyGet, hl, jsonIsStr]
    simp only [MetadataAwareCalculatorTool.execute, hrole, hpow, Bool.and_self,
      if_true, Bool.true_and, if_pos]
  · intro md0 rrole hmd hl hnb
    subst hmd
    have hrole : jsonIsStr (pyGet md0 "user_role" (Json.str "basic")) "basic" = false := by
      simp [pyGet, hl, hnb]
    constructor
    · intro v hv
      simp only [MetadataAwareCalculatorTool.execute, Option.getD_some, hpow, hrole,
        Bool.true_and, Bool.false_eq_true, if_false, hv]
      by_cases h2 : truthy (pyGet md0 "user_id" Json.null) = true
      · rw [if_pos h2]
        by_cases h1 : truthy (pyGet md0 "show_calculation" (Json.bool false)) = true
        · rw [if_pos h1]
          exact strExt (strExt (strExt (strExt (strExt
            ⟨" (calculated: ", rfl⟩ expression) ")") " [calculated for user: ")
            (jsonDisplay (pyGet md0 "user_id" Json.null))) "]"
        · rw [Bool.not_eq_true] at h1
          rw [if_neg (by simp [h1])]
          exact strExt (strExt ⟨" [calculated for user: ", rfl⟩
            (jsonDisplay (pyGet md0 "user_id" Json.null))) "]"
      · rw [Bool.not_eq_true] at h2
        rw [if_neg (by simp [h2])]
        by_cases h1 : truthy (pyGet md0 "show_calculation" (Json.bool false)) = true
        · rw [if_pos h1]
          exact strExt (strExt ⟨" (calculated: ", rfl⟩ expression) ")"
        · rw [Bool.not_eq_true] at h1
          rw [if_neg (by simp [h1])]
          exact ⟨"", (String.append_empty _).symm⟩
    · intro e he
      simp only [MetadataAwareCalculatorTool.execute, Option.getD_some, hpow, hrole,
        Bool.true_and, Bool.false_eq_true, if_false, he]

/-- Witness for C10: on the expression `2**10`, a basic user is denied and
an admin user gets a `Result: `-prefixed answer. -/
theorem c10_power_requires_privileges_witness :
    hasSubstr "2**10" "**" = true
    ∧ MetadataAwareCalculatorTool.execute (fun _ _ => Except.ok "1024") "2**10"
        (some [("user_role", Json.str "basic")])
        = "Error: Power operations require elevated privileges"
    ∧ (∃ tail, MetadataAwareCalculatorTool.execute (fun _ _ => Except.ok "1024") "2**10"
        (some [("user_role", Json.str "admin")])
        = ("Result: " ++ "1024") ++ tail) :=
  ⟨by decide,
    (c10_power_requires_privileges (fun _ _ => Except.ok "1024") "2**10"
        (some [("user_role", Json.str "basic")]) (by decide)).1
      (Or.inr (Or.inr ⟨[("user_role", Json.str "basic")], rfl, rfl⟩))
      (fun _ _ => Except.ok "1024"),
    ((c10_power_requires_privileges (fun _ _ => Except.ok "1024") "2**10"
        (some [("user_role", Json.str "admin")]) (by decide)).2
      [("user_role", Json.str "admin")] (Json.str "admin") rfl rfl (by decide)).1
      "1024" rfl⟩
